import Mathlib

/-!
Verification of the s3-manager repository: a shallow embedding of its
storage-service layer (S3Service), its file-browser filtering and sorting
logic (FileBrowser), and its page-level handlers (Index), together with
proofs settling the frozen claims about the specification.

Conventions of the embedding:
- JavaScript strings are modelled by Lean String (a list of characters);
  indices count characters where the source counts UTF-16 units, which
  agrees on all inputs the claims quantify over.
- JavaScript string truthiness (an empty string is falsy) is modelled by
  explicit emptiness tests.
- localeCompare is modelled by the code-point linear order on String.
- Date values are modelled by integers (epoch milliseconds).
- Optional / possibly-undefined values are modelled by Option.
-/

/-! ## Basic string helpers mirroring JavaScript string operations -/

/-- Model of the JavaScript test that one character list starts with another. -/
def strStartsWith (s t : String) : Bool :=
  t.data.isPrefixOf s.data

/-- Search for the first occurrence of the pattern pat inside s; on success
return the part of s before the occurrence and the part after it.
Models the search underlying JavaScript replace and includes. -/
def findSplit (pat : List Char) : List Char → Option (List Char × List Char)
  | [] => if pat.isPrefixOf ([] : List Char) then some ([], []) else none
  | c :: cs =>
    if pat.isPrefixOf (c :: cs) then some ([], (c :: cs).drop pat.length)
    else (findSplit pat cs).map (fun q => (c :: q.1, q.2))

/-- Model of JavaScript String.prototype.replace with a string pattern:
only the first occurrence is replaced; if the pattern does not occur the
string is returned unchanged. -/
def replaceFirstStr (s pat repl : String) : String :=
  match findSplit pat.data s.data with
  | some (b, a) => String.mk b ++ repl ++ String.mk a
  | none => s

/-- Model of JavaScript String.prototype.includes. -/
def strIncludes (s t : String) : Bool :=
  (findSplit t.data s.data).isSome

/-- Model of JavaScript String.prototype.slice with one nonnegative index:
drop the first n characters. -/
def strDropChars (s : String) (n : Nat) : String :=
  String.mk (s.data.drop n)

/-- Whether a key ends with the slash character, as tested by the source
with endsWith. -/
def endsWithSlash (s : String) : Bool :=
  decide (s.data.getLast? = some '/')

/-- Split a character list at every occurrence of the separator, keeping
empty components, as JavaScript split with a single-character separator
does: the empty list splits to one empty component. -/
def splitOnCharL (sep : Char) : List Char → List (List Char)
  | [] => [[]]
  | c :: cs =>
    let r := splitOnCharL sep cs
    if c = sep then [] :: r
    else
      match r with
      | [] => [[c]]
      | h :: t => (c :: h) :: t

/-- Join character lists with the separator between consecutive components,
as JavaScript join with a single-character separator does. -/
def intercalateChar (sep : Char) : List (List Char) → List Char
  | [] => []
  | [x] => x
  | x :: xs => x ++ sep :: intercalateChar sep xs

/-- Model of JavaScript toLowerCase, restricted to the ASCII case mapping. -/
def strToLower (s : String) : String :=
  String.mk (s.data.map Char.toLower)

/-- Model of JavaScript String.prototype.trim: drop whitespace characters
from both ends. -/
def trimStr (s : String) : String :=
  String.mk
    (((s.data.dropWhile Char.isWhitespace).reverse.dropWhile
        Char.isWhitespace).reverse)

/-- Model of localeCompare as used by the sorting comparators: negative when
the first string is smaller, positive when larger, zero when equal, in the
code-point order on strings. -/
def cmpName (a b : String) : Int :=
  if a < b then -1 else if b < a then 1 else 0

/-! ## Data model (types/s3Types.ts) -/

/-- The two kinds of entries of a FileItem (the field named type in the
source, with values the string literals file and folder). -/
inductive FType where
  | file : FType
  | folder : FType
deriving DecidableEq, Repr

/-- FileItem from types/s3Types.ts. The source field type is rendered as
ftype here; extension and mimeType are optional in the source. Sizes and
timestamps are integers. -/
structure FileItem where
  key : String
  name : String
  size : Int
  lastModified : Int
  ftype : FType
  extension : Option String := none
  mimeType : Option String := none
deriving DecidableEq, Repr

/-- One member of the Contents array of a ListObjectsV2 response: Key,
Size and LastModified are all optional in the SDK response type. -/
structure S3Object where
  key : Option String := none
  size : Option Int := none
  lastModified : Option Int := none
deriving DecidableEq, Repr

/-- One member of the CommonPrefixes array of a ListObjectsV2 response;
the field cpVal models the optional field named Prefix in the SDK. -/
structure CommonPrefixEntry where
  cpVal : Option String := none
deriving DecidableEq, Repr

/-- The part of a ListObjectsV2 response read by the source code. -/
structure ListResponse where
  contents : Option (List S3Object) := none
  commonPrefixes : Option (List CommonPrefixEntry) := none
deriving DecidableEq, Repr

/-! ## S3Service.getMimeType (part 002, lines 313 to 367) -/

/-- The extension-to-mime-type table of S3Service.getMimeType, with the
default of application/octet-stream for unknown extensions. -/
def getMimeType (ext : String) : String :=
  if ext = "jpg" then "image/jpeg"
  else if ext = "jpeg" then "image/jpeg"
  else if ext = "png" then "image/png"
  else if ext = "gif" then "image/gif"
  else if ext = "svg" then "image/svg+xml"
  else if ext = "bmp" then "image/bmp"
  else if ext = "webp" then "image/webp"
  else if ext = "mp4" then "video/mp4"
  else if ext = "avi" then "video/avi"
  else if ext = "mov" then "video/quicktime"
  else if ext = "wmv" then "video/x-ms-wmv"
  else if ext = "flv" then "video/x-flv"
  else if ext = "webm" then "video/webm"
  else if ext = "mp3" then "audio/mpeg"
  else if ext = "wav" then "audio/wav"
  else if ext = "ogg" then "audio/ogg"
  else if ext = "m4a" then "audio/mp4"
  else if ext = "flac" then "audio/flac"
  else if ext = "pdf" then "application/pdf"
  else if ext = "doc" then "application/msword"
  else if ext = "docx" then "application/vnd.openxmlformats-officedocument.wordprocessingml.document"
  else if ext = "xls" then "application/vnd.ms-excel"
  else if ext = "xlsx" then "application/vnd.openxmlformats-officedocument.spreadsheetml.sheet"
  else if ext = "ppt" then "application/vnd.ms-powerpoint"
  else if ext = "pptx" then "application/vnd.openxmlformats-officedocument.presentationml.presentation"
  else if ext = "js" then "text/javascript"
  else if ext = "ts" then "text/typescript"
  else if ext = "html" then "text/html"
  else if ext = "css" then "text/css"
  else if ext = "json" then "application/json"
  else if ext = "xml" then "application/xml"
  else if ext = "txt" then "text/plain"
  else if ext = "md" then "text/markdown"
  else if ext = "zip" then "application/zip"
  else if ext = "rar" then "application/x-rar-compressed"
  else if ext = "7z" then "application/x-7z-compressed"
  else if ext = "tar" then "application/x-tar"
  else if ext = "gz" then "application/gzip"
  else "application/octet-stream"

/-! ## S3Service.listFiles (part 002, lines 44 to 117), pure response
processing -/

/-- The extension computed for a listed file: the source splits the file
name on the dot character, takes the last component and lowercases it. -/
def fileExtension (fileName : String) : String :=
  strToLower (String.mk ((splitOnCharL '.' fileName.data).getLastD []))

/-- The folder entries built from the CommonPrefixes of the response: for
each entry with a nonempty Prefix value p, the displayed name is p with
the listing path removed from the front and with the first slash removed;
entries whose displayed name is empty are skipped. pfx is the listing
path (the parameter named prefix in the source). -/
def folderItems (pfx : String) (cps : List CommonPrefixEntry) (now : Int) :
    List FileItem :=
  cps.filterMap fun cp =>
    match cp.cpVal with
    | none => none
    | some p =>
      if p = "" then none
      else if replaceFirstStr (strDropChars p pfx.length) "/" "" = "" then none
      else some { key := p,
                  name := replaceFirstStr (strDropChars p pfx.length) "/" "",
                  size := 0, lastModified := now, ftype := FType.folder }

/-- The file entries built from the Contents of the response: objects with
a nonempty Key different from the listing path and not ending in a slash
become file entries; the name is the key with the listing path removed
from the front. -/
def fileItems (pfx : String) (objs : List S3Object) (now : Int) :
    List FileItem :=
  objs.filterMap fun o =>
    match o.key with
    | none => none
    | some k =>
      if k = "" then none
      else if k = pfx then none
      else if endsWithSlash k then none
      else some { key := k, name := strDropChars k pfx.length,
                  size := o.size.getD 0,
                  lastModified := o.lastModified.getD now, ftype := FType.file,
                  extension := some (fileExtension (strDropChars k pfx.length)),
                  mimeType :=
                    some (getMimeType (fileExtension (strDropChars k pfx.length))) }

/-- The comparator of the final sort of listFiles, as a boolean
less-or-equal relation: entries of different kinds compare with folders
first; entries of the same kind compare by name. -/
def listLe (a b : FileItem) : Bool :=
  if a.ftype = b.ftype then decide (cmpName a.name b.name ≤ 0)
  else decide (a.ftype = FType.folder)

/-- The comparator of listFiles as a decidable relation, for use with the
stable sort. -/
def listRel (a b : FileItem) : Prop := listLe a b = true

instance : DecidableRel listRel := fun _ _ => instDecidableEqBool _ _

/-- The pure part of S3Service.listFiles: build folder entries from
CommonPrefixes, file entries from Contents, and sort with folders first
and names ascending within each kind. The JavaScript stable sort is
modelled by the stable insertion sort. now stands for the value of
new Date() during the call. -/
def listFilesPure (pfx : String) (resp : ListResponse) (now : Int) :
    List FileItem :=
  (folderItems pfx (resp.commonPrefixes.getD []) now ++
    fileItems pfx (resp.contents.getD []) now).insertionSort listRel

example :
    listFilesPure "a/" { contents := some [{ key := some "a/x.txt", size := some 3 }],
                         commonPrefixes := some [{ cpVal := some "a/docs/" }] } 0 =
    [{ key := "a/docs/", name := "docs", size := 0, lastModified := 0,
       ftype := FType.folder },
     { key := "a/x.txt", name := "x.txt", size := 3, lastModified := 0,
       ftype := FType.file, extension := some "txt",
       mimeType := some "text/plain" }] := by decide

/-! ## FileBrowser filtering and sorting (part 001, lines 117 to 243) -/

/-- The file-type filter values of the sidebar (FileType in s3Types). -/
inductive FileType where
  | all : FileType
  | images : FileType
  | videos : FileType
  | audio : FileType
  | documents : FileType
  | code : FileType
  | archives : FileType
  | others : FileType
deriving DecidableEq, Repr

/-- The sort keys of the sidebar (SortBy in s3Types). -/
inductive SortBy where
  | name : SortBy
  | size : SortBy
  | lastModified : SortBy
deriving DecidableEq, Repr

/-- The sort directions of the sidebar (SortOrder in s3Types). -/
inductive SortOrder where
  | asc : SortOrder
  | desc : SortOrder
deriving DecidableEq, Repr

/-- Document extensions recognised by the type filter. -/
def extListDocuments : List String :=
  ["pdf", "doc", "docx", "xls", "xlsx", "ppt", "pptx"]

/-- Code extensions recognised by the outer code case of the type filter. -/
def extListCodeOuter : List String :=
  ["js", "ts", "html", "css", "json", "xml", "txt", "md", "py", "java",
   "cpp", "c"]

/-- Code extensions recognised inside the others case of the type filter;
the source repeats the list there without py, java, cpp and c. -/
def extListCodeInner : List String :=
  ["js", "ts", "html", "css", "json", "xml", "txt", "md"]

/-- Archive extensions recognised by the type filter. -/
def extListArchives : List String :=
  ["zip", "rar", "7z", "tar", "gz"]

/-- The search filter predicate: keep entries whose lowercased name
includes the lowercased search term. -/
def searchPred (st : String) (f : FileItem) : Bool :=
  strIncludes (strToLower f.name) (strToLower st)

/-- The type filter predicate of filteredAndSortedFiles: folders are
rejected whenever a specific type filter is active; files are matched by
mime type or extension depending on the filter value. -/
def typeFilterPred (ft : FileType) (f : FileItem) : Bool :=
  if f.ftype = FType.folder then false
  else
    let ext := (f.extension.map strToLower).getD ""
    let mt := f.mimeType.getD ""
    match ft with
    | FileType.images => strStartsWith mt "image/"
    | FileType.videos => strStartsWith mt "video/"
    | FileType.audio => strStartsWith mt "audio/"
    | FileType.documents => extListDocuments.contains ext
    | FileType.code => extListCodeOuter.contains ext
    | FileType.archives => extListArchives.contains ext
    | FileType.others =>
        !(strStartsWith mt "image/" || strStartsWith mt "video/" ||
          strStartsWith mt "audio/" || extListDocuments.contains ext ||
          extListCodeInner.contains ext || extListArchives.contains ext)
    | FileType.all => true

/-- The signed comparison value of the sort comparator for entries of the
same kind, before the direction is applied. -/
def keyNum (sb : SortBy) (a b : FileItem) : Int :=
  match sb with
  | SortBy.name => cmpName a.name b.name
  | SortBy.size => a.size - b.size
  | SortBy.lastModified => a.lastModified - b.lastModified

/-- The signed comparison value of the sort comparator with the direction
applied: the key comparison, negated for the descending direction. -/
def effNum (sb : SortBy) (so : SortOrder) (a b : FileItem) : Int :=
  if so = SortOrder.desc then -(keyNum sb a b) else keyNum sb a b

/-- The sort comparator of filteredAndSortedFiles as a boolean
less-or-equal relation: entries of different kinds always compare with
folders first, regardless of direction; entries of the same kind compare
by the selected key, negated for the descending direction. -/
def fileLe (sb : SortBy) (so : SortOrder) (a b : FileItem) : Bool :=
  if a.ftype = b.ftype then decide (effNum sb so a b ≤ 0)
  else decide (a.ftype = FType.folder)

/-- The comparator of filteredAndSortedFiles as a decidable relation. -/
def fileRel (sb : SortBy) (so : SortOrder) : FileItem → FileItem → Prop :=
  fun a b => fileLe sb so a b = true

instance (sb : SortBy) (so : SortOrder) : DecidableRel (fileRel sb so) :=
  fun _ _ => instDecidableEqBool _ _

/-- The search stage of filteredAndSortedFiles: applied only when the
search term is nonempty, as the source guards on the truthiness of the
search term. -/
def searchFiltered (files : List FileItem) (st : String) : List FileItem :=
  if st = "" then files else files.filter (searchPred st)

/-- The type-filter stage of filteredAndSortedFiles: applied only when the
filter differs from the value all. -/
def typeFiltered (files : List FileItem) (ft : FileType) : List FileItem :=
  if ft = FileType.all then files else files.filter (typeFilterPred ft)

/-- FileBrowser.filteredAndSortedFiles: apply the search filter, apply the
type filter, then sort with the stable sort under the comparator. -/
def filteredAndSortedFiles (files : List FileItem) (st : String)
    (ft : FileType) (sb : SortBy) (so : SortOrder) : List FileItem :=
  (typeFiltered (searchFiltered files st) ft).insertionSort (fileRel sb so)

/-! ## FileBrowser rename dialog (part 001, lines 379 to 407 and
507 to 521) -/

/-- The index of the last dot character of a character list, counted from
the front, or none when there is no dot; models lastIndexOf. -/
def lastDotIdx : List Char → Option Nat
  | [] => none
  | c :: cs =>
    match lastDotIdx cs with
    | some i => some (i + 1)
    | none => if c = '.' then some 0 else none

/-- FileBrowser.getFileNameAndExtension: for folders the whole name and an
empty extension; for files, split at the last dot unless the last dot is
absent or at index zero. -/
def getFileNameAndExtension (fileName : String) (isFile : Bool) :
    String × String :=
  if isFile = false then (fileName, "")
  else
    match lastDotIdx fileName.data with
    | none => (fileName, "")
    | some i =>
      if i = 0 then (fileName, "")
      else (String.mk (fileName.data.take i), String.mk (fileName.data.drop i))

/-- The extension of a file name as computed by getFileNameAndExtension for
a file entry. -/
def extOf (fileName : String) : String :=
  (getFileNameAndExtension fileName true).2

/-- FileBrowser.handleRename, reduced to the name it passes to the rename
operation: none when the trimmed input is empty (the dialog then does
nothing); for a file entry the trimmed input with the original extension
appended, for a folder entry the trimmed input unchanged. -/
def handleRenameFinalName (origName : String) (isFile : Bool)
    (renameName : String) : Option String :=
  if trimStr renameName = "" then none
  else
    let e := (getFileNameAndExtension origName isFile).2
    some (if isFile then trimStr renameName ++ e else trimStr renameName)

/-! ## Bucket-state semantics of rename (part 002, lines 144 to 185) -/

/-- A bucket state: a partial map from keys to object contents, contents
being abstracted to integers. -/
def Bucket : Type := String → Option Int

/-- The key renameFile copies to: the old key with its last
slash-separated segment replaced by the new name. -/
def renameKeyOf (oldKey newName : String) : String :=
  String.mk
    (intercalateChar '/'
      ((splitOnCharL '/' oldKey.data).dropLast ++ [newName.data]))

/-- Semantics of one CopyObject call on the bucket state: fails when the
source key is absent, otherwise stores the source content at the
destination key. -/
def copyObjectState (b : Bucket) (src dst : String) : Option Bucket :=
  match b src with
  | none => none
  | some c => some (fun k => if k = dst then some c else b k)

/-- Semantics of one DeleteObject call on the bucket state: the key is
removed; deleting an absent key succeeds, as it does in S3. -/
def deleteObjectState (b : Bucket) (key : String) : Bucket :=
  fun k => if k = key then none else b k

/-- Bucket-state semantics of S3Service.renameFile: copy the old key to
the renamed key, then delete the old key; fails when the old key is
absent. -/
def renameFileState (b : Bucket) (oldKey newName : String) : Option Bucket :=
  match copyObjectState b oldKey (renameKeyOf oldKey newName) with
  | none => none
  | some b2 => some (deleteObjectState b2 oldKey)

example : renameKeyOf "a/b/c.txt" "d.txt" = "a/b/d.txt" := by decide
example : renameKeyOf "c.txt" "d.txt" = "d.txt" := by decide
example : renameKeyOf "docs/" "x" = "docs/x" := by decide
example : extOf "archive.tar.gz" = ".gz" := by decide
example : extOf ".bashrc" = "" := by decide
example : extOf "README" = "" := by decide
example : handleRenameFinalName "a.txt" true "  b " = some "b.txt" := by decide
example : trimStr "  b " = "b" := by decide

/-! ## Structural lemmas about the listing -/

/-- Every folder entry built by the listing keeps the full common-prefix
value as its key, has kind folder and size zero. -/
theorem mem_folderItems {pfx : String} {cps : List CommonPrefixEntry}
    {now : Int} {it : FileItem} (h : it ∈ folderItems pfx cps now) :
    ∃ cp ∈ cps, cp.cpVal = some it.key ∧ it.ftype = FType.folder ∧
      it.size = 0 := by
  rw [folderItems, List.mem_filterMap] at h
  obtain ⟨cp, hcp, heq⟩ := h
  refine ⟨cp, hcp, ?_⟩
  cases hv : cp.cpVal with
  | none => rw [hv] at heq; simp at heq
  | some p =>
    rw [hv] at heq
    simp only at heq
    split_ifs at heq with h1 h2
    rw [Option.some_inj] at heq
    subst heq
    exact ⟨rfl, rfl, rfl⟩

/-- Every file entry built by the listing keeps the object key as its key
and has kind file. -/
theorem mem_fileItems {pfx : String} {objs : List S3Object} {now : Int}
    {it : FileItem} (h : it ∈ fileItems pfx objs now) :
    ∃ o ∈ objs, o.key = some it.key ∧ it.ftype = FType.file := by
  rw [fileItems, List.mem_filterMap] at h
  obtain ⟨o, ho, heq⟩ := h
  refine ⟨o, ho, ?_⟩
  cases hv : o.key with
  | none => rw [hv] at heq; simp at heq
  | some k =>
    rw [hv] at heq
    simp only at heq
    split_ifs at heq with h1 h2 h3
    rw [Option.some_inj] at heq
    subst heq
    exact ⟨rfl, rfl⟩

/-- Membership in the listing result is membership in the folder entries
or in the file entries. -/
theorem mem_listFilesPure {pfx : String} {resp : ListResponse} {now : Int}
    {it : FileItem} :
    it ∈ listFilesPure pfx resp now ↔
      it ∈ folderItems pfx (resp.commonPrefixes.getD []) now ∨
        it ∈ fileItems pfx (resp.contents.getD []) now := by
  rw [listFilesPure, List.mem_insertionSort, List.mem_append]

/-- CLAIM C1. Under the list-with-prefix contract (every object key in
Contents and every common-prefix value of the response begins with the
requested path), every entry returned by listFiles, folder and file alike,
has a key beginning with the requested path. -/
theorem claim1_listing_keys_within_requested_path (pfx : String)
    (resp : ListResponse) (now : Int)
    (hc : ∀ o ∈ resp.contents.getD [], ∀ k, o.key = some k →
      strStartsWith k pfx = true)
    (hp : ∀ cp ∈ resp.commonPrefixes.getD [], ∀ p, cp.cpVal = some p →
      strStartsWith p pfx = true) :
    ∀ it ∈ listFilesPure pfx resp now, strStartsWith it.key pfx = true := by
  intro it hit
  rcases mem_listFilesPure.mp hit with h | h
  · obtain ⟨cp, hcp, hkey, _, _⟩ := mem_folderItems h
    exact hp cp hcp it.key hkey
  · obtain ⟨o, ho, hkey, _⟩ := mem_fileItems h
    exact hc o ho it.key hkey

/-- A concrete response used by the witnesses: one object and one common
prefix under the path a/. -/
def respC1 : ListResponse :=
  { contents := some [{ key := some "a/x.txt", size := some 3 }],
    commonPrefixes := some [{ cpVal := some "a/docs/" }] }

/-- The folder entry listed from respC1. -/
def folderItemC1 : FileItem :=
  { key := "a/docs/", name := "docs", size := 0, lastModified := 0,
    ftype := FType.folder }

/-- Witness for CLAIM C1 at the concrete response respC1. -/
theorem claim1_witness : strStartsWith folderItemC1.key "a/" = true := by
  refine claim1_listing_keys_within_requested_path "a/" respC1 0 ?_ ?_
    folderItemC1 (by decide)
  · intro o ho k hk
    simp only [respC1, Option.getD_some, List.mem_singleton] at ho
    subst ho
    rw [Option.some_inj] at hk
    subst hk
    decide
  · intro cp hcp p hp
    simp only [respC1, Option.getD_some, List.mem_singleton] at hcp
    subst hcp
    rw [Option.some_inj] at hp
    subst hp
    decide

/-- CLAIM C6. Every folder entry the listing constructs has size zero, for
every path and every response; and the browser filter-and-sort stage only
passes input entries through, so it constructs no folder entry either. -/
theorem claim6_folder_entries_have_size_zero :
    (∀ (pfx : String) (resp : ListResponse) (now : Int),
      ∀ it ∈ listFilesPure pfx resp now,
        it.ftype = FType.folder → it.size = 0) ∧
    (∀ (files : List FileItem) (st : String) (ft : FileType) (sb : SortBy)
        (so : SortOrder),
      ∀ it ∈ filteredAndSortedFiles files st ft sb so, it ∈ files) := by
  constructor
  · intro pfx resp now it hit hf
    rcases mem_listFilesPure.mp hit with h | h
    · obtain ⟨_, _, _, _, hs⟩ := mem_folderItems h
      exact hs
    · obtain ⟨_, _, _, hk⟩ := mem_fileItems h
      rw [hk] at hf
      exact absurd hf (by decide)
  · intro files st ft sb so it hit
    rw [filteredAndSortedFiles, List.mem_insertionSort] at hit
    rw [typeFiltered] at hit
    split_ifs at hit with h1
    · rw [searchFiltered] at hit
      split_ifs at hit with h2
      · exact hit
      · exact List.mem_of_mem_filter hit
    · have hit2 := List.mem_of_mem_filter hit
      rw [searchFiltered] at hit2
      split_ifs at hit2 with h2
      · exact hit2
      · exact List.mem_of_mem_filter hit2

/-- Witness for CLAIM C6 at the concrete response respC1 and a concrete
browser input. -/
theorem claim6_witness :
    folderItemC1.size = 0 ∧ folderItemC1 ∈ [folderItemC1] := by
  constructor
  · exact claim6_folder_entries_have_size_zero.1 "a/" respC1 0 folderItemC1
      (by decide) (by decide)
  · exact claim6_folder_entries_have_size_zero.2 [folderItemC1] "" FileType.all
      SortBy.name SortOrder.asc folderItemC1 (by decide)

/-! ## CLAIM C10: the type filter and folders -/

/-- CLAIM C10. With any type filter other than all, the displayed list
contains no folder entry; with filter all, the search term alone never
removes a folder whose lowercased name includes the lowercased term. -/
theorem claim10_type_filter_excludes_folders :
    (∀ (files : List FileItem) (st : String) (ft : FileType) (sb : SortBy)
        (so : SortOrder), ft ≠ FileType.all →
      ∀ it ∈ filteredAndSortedFiles files st ft sb so,
        it.ftype ≠ FType.folder) ∧
    (∀ (files : List FileItem) (st : String) (sb : SortBy) (so : SortOrder),
      ∀ f ∈ files, f.ftype = FType.folder →
        strIncludes (strToLower f.name) (strToLower st) = true →
        f ∈ filteredAndSortedFiles files st FileType.all sb so) := by
  constructor
  · intro files st ft sb so hft it hit
    rw [filteredAndSortedFiles, List.mem_insertionSort, typeFiltered,
      if_neg hft, List.mem_filter] at hit
    intro hfold
    have hp := hit.2
    rw [typeFilterPred, if_pos hfold] at hp
    exact Bool.false_ne_true hp
  · intro files st sb so f hf hfold hsearch
    rw [filteredAndSortedFiles, List.mem_insertionSort, typeFiltered,
      if_pos rfl]
    rw [searchFiltered]
    split_ifs with hst
    · exact hf
    · rw [List.mem_filter]
      exact ⟨hf, hsearch⟩

/-- A concrete source file entry used by witnesses. -/
def jsItemW : FileItem :=
  { key := "app.js", name := "app.js", size := 10, lastModified := 0,
    ftype := FType.file, extension := some "js",
    mimeType := some "text/javascript" }

/-- A concrete folder entry used by witnesses. -/
def docsItemW : FileItem :=
  { key := "docs/", name := "docs", size := 0, lastModified := 0,
    ftype := FType.folder }

/-- Witness for CLAIM C10: with the code filter the folder disappears and
the remaining entry is not a folder; with the filter all, the folder whose
name matches the search term doc stays. -/
theorem claim10_witness :
    jsItemW.ftype ≠ FType.folder ∧
    docsItemW ∈ filteredAndSortedFiles [docsItemW, jsItemW] "doc" FileType.all
      SortBy.name SortOrder.asc := by
  constructor
  · exact claim10_type_filter_excludes_folders.1 [docsItemW, jsItemW] ""
      FileType.code SortBy.name SortOrder.asc (by decide) jsItemW (by decide)
  · exact claim10_type_filter_excludes_folders.2 [docsItemW, jsItemW] "doc"
      SortBy.name SortOrder.asc docsItemW (by decide) (by decide) (by decide)

/-! ## Order properties of the sort comparators -/

/-- The comparator value is nonpositive exactly when the first name is not
larger in the code-point order. -/
theorem cmpName_le_iff {a b : String} : cmpName a b ≤ 0 ↔ a ≤ b := by
  rw [cmpName]
  split_ifs with h1 h2
  · exact iff_of_true (by norm_num) h1.le
  · exact iff_of_false (by norm_num) (not_le.mpr h2)
  · exact iff_of_true (le_refl 0) (le_of_not_lt h2)

/-- The comparator value is nonnegative exactly when the second name is not
larger in the code-point order. -/
theorem cmpName_nonneg_iff {a b : String} : 0 ≤ cmpName a b ↔ b ≤ a := by
  rw [cmpName]
  split_ifs with h1 h2
  · exact iff_of_false (by norm_num) (not_le.mpr h1)
  · exact iff_of_true (by norm_num) h2.le
  · exact iff_of_true (le_refl 0) (le_of_not_lt h1)

/-- The directed comparison in the ascending direction is the key
comparison itself. -/
theorem effNum_asc (sb : SortBy) (a b : FileItem) :
    effNum sb SortOrder.asc a b = keyNum sb a b := rfl

/-- The directed comparison in the descending direction is the negated key
comparison. -/
theorem effNum_desc (sb : SortBy) (a b : FileItem) :
    effNum sb SortOrder.desc a b = -(keyNum sb a b) := rfl

/-- Totality of the directed key comparison. -/
theorem effNum_le_total (sb : SortBy) (so : SortOrder) (a b : FileItem) :
    effNum sb so a b ≤ 0 ∨ effNum sb so b a ≤ 0 := by
  cases so with
  | asc =>
    simp only [effNum_asc]
    cases sb with
    | name =>
      rcases le_total a.name b.name with h | h
      · exact Or.inl (cmpName_le_iff.mpr h)
      · exact Or.inr (cmpName_le_iff.mpr h)
    | size => simp only [keyNum]; omega
    | lastModified => simp only [keyNum]; omega
  | desc =>
    simp only [effNum_desc]
    cases sb with
    | name =>
      rcases le_total a.name b.name with h | h
      · exact Or.inr (neg_nonpos.mpr (cmpName_nonneg_iff.mpr h))
      · exact Or.inl (neg_nonpos.mpr (cmpName_nonneg_iff.mpr h))
    | size => simp only [keyNum]; omega
    | lastModified => simp only [keyNum]; omega

/-- Transitivity of the directed key comparison. -/
theorem effNum_le_trans (sb : SortBy) (so : SortOrder) (a b c : FileItem) :
    effNum sb so a b ≤ 0 → effNum sb so b c ≤ 0 → effNum sb so a c ≤ 0 := by
  cases so with
  | asc =>
    simp only [effNum_asc]
    cases sb with
    | name =>
      intro h1 h2
      exact cmpName_le_iff.mpr
        (le_trans (cmpName_le_iff.mp h1) (cmpName_le_iff.mp h2))
    | size => simp only [keyNum]; omega
    | lastModified => simp only [keyNum]; omega
  | desc =>
    simp only [effNum_desc]
    cases sb with
    | name =>
      intro h1 h2
      have hba := cmpName_nonneg_iff.mp (neg_nonpos.mp h1)
      have hcb := cmpName_nonneg_iff.mp (neg_nonpos.mp h2)
      exact neg_nonpos.mpr (cmpName_nonneg_iff.mpr (le_trans hcb hba))
    | size => simp only [keyNum]; omega
    | lastModified => simp only [keyNum]; omega

/-- The comparator on entries of the same kind is the directed key
comparison. -/
theorem fileLe_same_iff {sb : SortBy} {so : SortOrder} {a b : FileItem}
    (h : a.ftype = b.ftype) :
    fileLe sb so a b = true ↔ effNum sb so a b ≤ 0 := by
  rw [fileLe, if_pos h, decide_eq_true_eq]

/-- The comparator on entries of different kinds puts folders first. -/
theorem fileLe_diff_iff {sb : SortBy} {so : SortOrder} {a b : FileItem}
    (h : ¬a.ftype = b.ftype) :
    fileLe sb so a b = true ↔ a.ftype = FType.folder := by
  rw [fileLe, if_neg h, decide_eq_true_eq]

/-- Transitivity of the browser sort comparator. -/
theorem fileLe_trans (sb : SortBy) (so : SortOrder) :
    ∀ a b c : FileItem, fileLe sb so a b = true → fileLe sb so b c = true →
      fileLe sb so a c = true := by
  intro a b c hab hbc
  by_cases h1 : a.ftype = b.ftype
  · by_cases h2 : b.ftype = c.ftype
    · rw [fileLe_same_iff h1] at hab
      rw [fileLe_same_iff h2] at hbc
      rw [fileLe_same_iff (h1.trans h2)]
      exact effNum_le_trans sb so a b c hab hbc
    · rw [fileLe_diff_iff h2] at hbc
      have hac : ¬a.ftype = c.ftype := by rw [h1]; exact h2
      rw [fileLe_diff_iff hac]
      exact h1.trans hbc
  · rw [fileLe_diff_iff h1] at hab
    by_cases h2 : b.ftype = c.ftype
    · have hac : ¬a.ftype = c.ftype := by rw [← h2]; exact h1
      rw [fileLe_diff_iff hac]
      exact hab
    · rw [fileLe_diff_iff h2] at hbc
      exact absurd (hab.trans hbc.symm) h1

/-- Totality of the browser sort comparator. -/
theorem fileLe_total (sb : SortBy) (so : SortOrder) :
    ∀ a b : FileItem, fileLe sb so a b = true ∨ fileLe sb so b a = true := by
  intro a b
  by_cases h : a.ftype = b.ftype
  · rcases effNum_le_total sb so a b with hle | hle
    · exact Or.inl ((fileLe_same_iff h).mpr hle)
    · exact Or.inr ((fileLe_same_iff h.symm).mpr hle)
  · cases ha : a.ftype with
    | folder => exact Or.inl ((fileLe_diff_iff h).mpr ha)
    | file =>
      cases hb : b.ftype with
      | folder =>
        exact Or.inr ((fileLe_diff_iff (fun hh => h hh.symm)).mpr hb)
      | file => exact absurd (ha.trans hb.symm) h

/-- If the comparator accepts a pair whose first entry is a file, the
second entry is a file as well. -/
theorem fileLe_file_imp {sb : SortBy} {so : SortOrder} {a b : FileItem}
    (h : fileLe sb so a b = true) (ha : a.ftype = FType.file) :
    b.ftype = FType.file := by
  by_cases he : a.ftype = b.ftype
  · rw [← he]; exact ha
  · rw [fileLe_diff_iff he] at h
    exact absurd (ha.symm.trans h) (by decide)

/-- The listing comparator is the browser comparator instantiated at the
name key and the ascending direction. -/
theorem listRel_eq : listRel = fileRel SortBy.name SortOrder.asc := rfl

/-- The output of the stable sort under the browser comparator is pairwise
ordered by the comparator. -/
theorem pairwise_fileRel_sorted (sb : SortBy) (so : SortOrder)
    (l : List FileItem) :
    (l.insertionSort (fileRel sb so)).Pairwise (fileRel sb so) := by
  haveI : IsTotal FileItem (fileRel sb so) := ⟨fileLe_total sb so⟩
  haveI : IsTrans FileItem (fileRel sb so) := ⟨fileLe_trans sb so⟩
  exact List.sorted_insertionSort (fileRel sb so) l

/-- CLAIM C9. In the displayed sorted list every folder entry comes before
every file entry for every search term, type filter, sort key and
direction; the chosen key and direction order the entries inside the
folder group and inside the file group; and the listing result also puts
folders before files with names ascending inside each group. -/
theorem claim9_folders_before_files_and_group_order :
    (∀ (files : List FileItem) (st : String) (ft : FileType) (sb : SortBy)
        (so : SortOrder),
      (filteredAndSortedFiles files st ft sb so).Pairwise
        (fun a b => a.ftype = FType.file → b.ftype = FType.file)) ∧
    (∀ (files : List FileItem) (st : String) (ft : FileType) (sb : SortBy)
        (so : SortOrder),
      ((filteredAndSortedFiles files st ft sb so).filter
          (fun f => decide (f.ftype = FType.folder))).Pairwise
        (fun a b => effNum sb so a b ≤ 0) ∧
      ((filteredAndSortedFiles files st ft sb so).filter
          (fun f => decide (f.ftype = FType.file))).Pairwise
        (fun a b => effNum sb so a b ≤ 0)) ∧
    (∀ (pfx : String) (resp : ListResponse) (now : Int),
      (listFilesPure pfx resp now).Pairwise
        (fun a b => a.ftype = FType.file → b.ftype = FType.file) ∧
      ((listFilesPure pfx resp now).filter
          (fun f => decide (f.ftype = FType.folder))).Pairwise
        (fun a b => a.name ≤ b.name) ∧
      ((listFilesPure pfx resp now).filter
          (fun f => decide (f.ftype = FType.file))).Pairwise
        (fun a b => a.name ≤ b.name)) := by
  have hsortedBrowser : ∀ (files : List FileItem) (st : String)
      (ft : FileType) (sb : SortBy) (so : SortOrder),
      (filteredAndSortedFiles files st ft sb so).Pairwise (fileRel sb so) :=
    fun files st ft sb so =>
      pairwise_fileRel_sorted sb so (typeFiltered (searchFiltered files st) ft)
  have hsortedList : ∀ (pfx : String) (resp : ListResponse) (now : Int),
      (listFilesPure pfx resp now).Pairwise
        (fileRel SortBy.name SortOrder.asc) := by
    intro pfx resp now
    rw [listFilesPure]
    exact pairwise_fileRel_sorted SortBy.name SortOrder.asc _
  have hgroup : ∀ (l : List FileItem) (sb : SortBy) (so : SortOrder)
      (ty : FType), l.Pairwise (fileRel sb so) →
      (l.filter (fun f => decide (f.ftype = ty))).Pairwise
        (fun a b => effNum sb so a b ≤ 0) := by
    intro l sb so ty hl
    have hsub := List.Pairwise.sublist
      (@List.filter_sublist FileItem (fun f => decide (f.ftype = ty)) l) hl
    refine hsub.imp_of_mem ?_
    intro a b ha hb hr
    have ha2 := of_decide_eq_true (List.mem_filter.mp ha).2
    have hb2 := of_decide_eq_true (List.mem_filter.mp hb).2
    exact (fileLe_same_iff (ha2.trans hb2.symm)).mp hr
  refine ⟨?_, ?_, ?_⟩
  · intro files st ft sb so
    exact (hsortedBrowser files st ft sb so).imp
      (fun h ha => fileLe_file_imp h ha)
  · intro files st ft sb so
    exact ⟨hgroup _ sb so FType.folder (hsortedBrowser files st ft sb so),
      hgroup _ sb so FType.file (hsortedBrowser files st ft sb so)⟩
  · intro pfx resp now
    refine ⟨(hsortedList pfx resp now).imp
      (fun h ha => fileLe_file_imp h ha), ?_, ?_⟩
    · exact (hgroup _ SortBy.name SortOrder.asc FType.folder
        (hsortedList pfx resp now)).imp (fun h => cmpName_le_iff.mp h)
    · exact (hgroup _ SortBy.name SortOrder.asc FType.file
        (hsortedList pfx resp now)).imp (fun h => cmpName_le_iff.mp h)

/-- Witness for CLAIM C9 at a concrete list: the folder entry precedes the
file entry in the displayed list whatever its position in the input. -/
theorem claim9_witness :
    (filteredAndSortedFiles [jsItemW, docsItemW] "" FileType.all SortBy.size
        SortOrder.desc).Pairwise
      (fun a b => a.ftype = FType.file → b.ftype = FType.file) :=
  claim9_folders_before_files_and_group_order.1 [jsItemW, docsItemW] ""
    FileType.all SortBy.size SortOrder.desc

/-! ## CLAIM C3: the rename dialog and extensions -/

/-- A character list without a dot has no last-dot index. -/
theorem lastDotIdx_eq_none_iff {cs : List Char} :
    lastDotIdx cs = none ↔ '.' ∉ cs := by
  induction cs with
  | nil => simp [lastDotIdx]
  | cons c cs ih =>
    rw [lastDotIdx]
    constructor
    · intro h
      cases hl : lastDotIdx cs with
      | some i => rw [hl] at h; simp at h
      | none =>
        by_cases hc : c = '.'
        · rw [hl] at h
          simp [hc] at h
        · intro hmem
          rcases List.mem_cons.mp hmem with he | hm
          · exact hc he.symm
          · exact (ih.mp hl) hm
    · intro h
      have hc : ¬(c = '.') := fun he => h (he ▸ List.mem_cons_self c cs)
      have hm : ('.' : Char) ∉ cs := fun hmm => h (List.mem_cons_of_mem c hmm)
      simp [ih.mpr hm, hc]

/-- The last-dot index of a list ending in a dot followed by a dot-free
tail is the length of the part before that dot. -/
theorem lastDotIdx_append_dot {rest : List Char} (h : '.' ∉ rest) :
    ∀ xs : List Char, lastDotIdx (xs ++ '.' :: rest) = some xs.length := by
  intro xs
  induction xs with
  | nil =>
    rw [List.nil_append, lastDotIdx, lastDotIdx_eq_none_iff.mpr h]
    simp
  | cons c xs ih =>
    rw [List.cons_append, lastDotIdx, ih]
    rfl

/-- Decomposition at the last dot: when the last-dot index exists, the list
splits into the part before the dot, the dot, and a dot-free tail. -/
theorem lastDotIdx_decomp :
    ∀ {cs : List Char} {i : Nat}, lastDotIdx cs = some i →
      ∃ xs rest, cs = xs ++ '.' :: rest ∧ xs.length = i ∧ '.' ∉ rest := by
  intro cs
  induction cs with
  | nil => intro i h; simp [lastDotIdx] at h
  | cons c cs ih =>
    intro i h
    rw [lastDotIdx] at h
    cases hl : lastDotIdx cs with
    | some j =>
      rw [hl] at h
      simp only [Option.some_inj] at h
      obtain ⟨xs, rest, hcs, hlen, hfree⟩ := ih hl
      refine ⟨c :: xs, rest, by rw [hcs]; rfl, ?_, hfree⟩
      rw [List.length_cons, hlen, h]
    | none =>
      rw [hl] at h
      simp only [] at h
      split_ifs at h with hc
      · rw [Option.some_inj] at h
        subst hc
        exact ⟨[], cs, rfl, h, lastDotIdx_eq_none_iff.mp hl⟩

/-- The extension computation for a file name without a dot is empty. -/
theorem extOf_of_none {s : String} (hl : lastDotIdx s.data = none) :
    extOf s = "" := by
  simp [extOf, getFileNameAndExtension, hl]

/-- The extension computation for a file name whose last dot is at index
zero is empty. -/
theorem extOf_of_zero {s : String} (hl : lastDotIdx s.data = some 0) :
    extOf s = "" := by
  simp [extOf, getFileNameAndExtension, hl]

/-- The extension computation for a file name whose last dot is at a
positive index is the tail of the name from that index. -/
theorem extOf_of_pos {s : String} {i : Nat} (hl : lastDotIdx s.data = some i)
    (hi : i ≠ 0) : extOf s = String.mk (s.data.drop i) := by
  simp [extOf, getFileNameAndExtension, hl, hi]

/-- Appending a string to a name whose computed extension is nonempty
preserves the computed extension, provided the appended front part is
nonempty. -/
theorem extOf_append_preserved (t orig : String) (ht : ¬t.data = [])
    (h : extOf orig ≠ "") :
    extOf (t ++ extOf orig) = extOf orig := by
  rcases Option.eq_none_or_eq_some (lastDotIdx orig.data) with hl | ⟨i, hl⟩
  · exact absurd (extOf_of_none hl) h
  · by_cases hi : i = 0
    · subst hi
      exact absurd (extOf_of_zero hl) h
    · obtain ⟨xs, rest, hcs, hlen, hfree⟩ := lastDotIdx_decomp hl
      have hdrop : orig.data.drop i = '.' :: rest := by
        rw [hcs, ← hlen, List.drop_left]
      have hext : extOf orig = String.mk ('.' :: rest) := by
        rw [extOf_of_pos hl hi, hdrop]
      rw [hext]
      have hdata : (t ++ String.mk ('.' :: rest)).data =
          t.data ++ '.' :: rest :=
        String.data_append t (String.mk ('.' :: rest))
      have hlast : lastDotIdx (t ++ String.mk ('.' :: rest)).data =
          some t.data.length := by
        rw [hdata]
        exact lastDotIdx_append_dot hfree t.data
      have hlen0 : t.data.length ≠ 0 := fun hz => ht (List.length_eq_zero.mp hz)
      rw [extOf_of_pos hlast hlen0, hdata, List.drop_left]

/-- CLAIM C3, counterexample to the claim as stated: renaming the file
README with the entered name v1.2 passes the final name v1.2 to the rename
operation, whose computed extension .2 differs from the empty computed
extension of the original name. -/
theorem claim3_counterexample :
    handleRenameFinalName "README" true "v1.2" = some "v1.2" ∧
    extOf "README" = "" ∧ extOf "v1.2" = ".2" := by decide

/-- CLAIM C3 as amended: for a folder entry the trimmed input is passed
unchanged; for a file entry the final name is the trimmed input with the
original computed extension appended, and whenever the original computed
extension is nonempty the final name has that same computed extension. -/
theorem claim3_amended_rename_preserves_extension
    (origName renameName : String) (hne : ¬trimStr renameName = "") :
    handleRenameFinalName origName false renameName =
        some (trimStr renameName) ∧
    handleRenameFinalName origName true renameName =
        some (trimStr renameName ++ extOf origName) ∧
    (extOf origName ≠ "" →
      extOf (trimStr renameName ++ extOf origName) = extOf origName) := by
  refine ⟨?_, ?_, ?_⟩
  · rw [handleRenameFinalName, if_neg hne]
    rfl
  · rw [handleRenameFinalName, if_neg hne]
    rfl
  · intro hext
    refine extOf_append_preserved (trimStr renameName) origName ?_ hext
    intro hdata
    exact hne (String.ext hdata)

/-- Witness for the amended CLAIM C3 at a concrete rename: the entered
name with surrounding spaces gets the original extension back. -/
theorem claim3_witness :
    (¬trimStr " b " = "") ∧
    handleRenameFinalName "a.txt" false " b " = some (trimStr " b ") ∧
    handleRenameFinalName "a.txt" true " b " =
      some (trimStr " b " ++ extOf "a.txt") ∧
    extOf (trimStr " b " ++ extOf "a.txt") = extOf "a.txt" := by
  have h := claim3_amended_rename_preserves_extension "a.txt" " b " (by decide)
  exact ⟨by decide, h.1, h.2.1, h.2.2 (by decide)⟩

/-! ## CLAIM C2: rename as copy then delete on the bucket state -/

/-- CLAIM C2, counterexample to the claim as stated: renaming a key to a
new name equal to its own last segment computes the same key back, so the
copy is a self-copy and the final delete removes the object; the rename
returns successfully, yet the bucket holds nothing at the new key, which
contradicts the claimed postcondition. -/
def bktC2 : Bucket := fun k => if k = "a/b.txt" then some 7 else none

/-- The claim as stated fails at the concrete input oldKey a/b.txt and
newName b.txt: the rename completes, the computed new key equals the old
key, and the resulting bucket holds nothing at that key instead of the
original content. -/
theorem claim2_counterexample :
    renameKeyOf "a/b.txt" "b.txt" = "a/b.txt" ∧
    (renameFileState bktC2 "a/b.txt" "b.txt").map
      (fun b2 => b2 (renameKeyOf "a/b.txt" "b.txt")) = some none := by
  constructor
  · decide
  · rfl

/-- CLAIM C2 as amended: when the old key is present and the computed new
key differs from the old key, renameFile copies to the key with the last
slash-separated segment replaced and deletes the old key, so that
afterwards the new key holds the original content, the old key holds
nothing, and every other key is unchanged. -/
theorem claim2_amended_rename_copy_then_delete (b : Bucket)
    (oldKey newName : String) (c : Int) (hold : b oldKey = some c)
    (hne : renameKeyOf oldKey newName ≠ oldKey) :
    ∃ b2, renameFileState b oldKey newName = some b2 ∧
      b2 (renameKeyOf oldKey newName) = some c ∧
      b2 oldKey = none ∧
      ∀ k, k ≠ oldKey → k ≠ renameKeyOf oldKey newName → b2 k = b k := by
  rw [renameFileState, copyObjectState, hold]
  refine ⟨_, rfl, ?_, ?_, ?_⟩
  · show (if renameKeyOf oldKey newName = oldKey then none
      else if renameKeyOf oldKey newName = renameKeyOf oldKey newName
        then some c else b (renameKeyOf oldKey newName)) = some c
    rw [if_neg hne, if_pos rfl]
  · show (if oldKey = oldKey then none else _) = none
    rw [if_pos rfl]
  · intro k h1 h2
    show (if k = oldKey then none
      else if k = renameKeyOf oldKey newName then some c else b k) = b k
    rw [if_neg h1, if_neg h2]

/-- Witness for the amended CLAIM C2 at a concrete bucket. -/
theorem claim2_witness :
    bktC2 "a/b.txt" = some 7 ∧
    renameKeyOf "a/b.txt" "c.txt" ≠ "a/b.txt" ∧
    (∃ b2, renameFileState bktC2 "a/b.txt" "c.txt" = some b2 ∧
      b2 (renameKeyOf "a/b.txt" "c.txt") = some 7 ∧
      b2 "a/b.txt" = none ∧
      ∀ k, k ≠ "a/b.txt" → k ≠ renameKeyOf "a/b.txt" "c.txt" →
        b2 k = bktC2 k) :=
  ⟨by decide, by decide,
    claim2_amended_rename_copy_then_delete bktC2 "a/b.txt" "c.txt" 7
      (by decide) (by decide)⟩

/-! ## Trace model of the storage client calls (part 002 and
pages/Index.tsx) -/

/-- An error value thrown by the storage client: some message when the
thrown value is an Error object, none otherwise. -/
abbrev ErrVal := Option String

/-- The message extracted from a caught value, as every catch block of the
service does: the message of an Error, and the text Unknown error
otherwise. -/
def errMsg (e : ErrVal) : String := e.getD "Unknown error"

/-- The body of a put request: a string for folder markers, bytes for
uploads. -/
inductive PutBody where
  | strBody : String → PutBody
  | bytes : List Nat → PutBody
deriving DecidableEq, Repr

/-- One request issued to the storage client, with the bucket it names and
its parameters. -/
inductive Call where
  | listObjects : String → Option String → Option String → Option Nat → Call
  | getObject : String → String → Call
  | putObject : String → String → PutBody → Call
  | deleteObject : String → String → Call
  | copyObject : String → String → String → Call
  | presign : String → String → Nat → Call
deriving DecidableEq, Repr

/-- The bucket a call names. -/
def Call.bucketOf : Call → String
  | Call.listObjects b _ _ _ => b
  | Call.getObject b _ => b
  | Call.putObject b _ _ => b
  | Call.deleteObject b _ => b
  | Call.copyObject b _ _ => b
  | Call.presign b _ _ => b

/-- Whether a call mutates the bucket. -/
def Call.isMutation : Call → Bool
  | Call.putObject _ _ _ => true
  | Call.deleteObject _ _ => true
  | Call.copyObject _ _ _ => true
  | _ => false

/-- The behaviour of the storage backend: the outcome of each kind of
request, as a function of its parameters. -/
structure S3Beh where
  onList : String → Option String → Option String → Option Nat →
    Except ErrVal ListResponse
  onGet : String → String → Except ErrVal (Option (List Nat))
  onPut : String → String → PutBody → Except ErrVal Unit
  onDelete : String → String → Except ErrVal Unit
  onCopy : String → String → String → Except ErrVal Unit
  onPresign : String → String → Nat → Except ErrVal String

/-- S3Credentials from types/s3Types.ts. -/
structure S3Credentials where
  accessKeyId : String
  secretAccessKey : String
  region : String
  bucketName : String
deriving DecidableEq, Repr

/-- The S3Service state: the bucket name captured from the credentials at
construction time; the client configuration holds no bucket. -/
structure S3Service where
  bucketName : String
deriving DecidableEq, Repr

/-- The S3Service constructor: captures the bucket name from the
credentials. -/
def S3Service.ofCredentials (creds : S3Credentials) : S3Service :=
  { bucketName := creds.bucketName }

/-- A file handed to the upload handler: its name and content bytes. -/
structure JsFile where
  name : String
  content : List Nat
deriving DecidableEq, Repr

/-- The object key used by uploadFile: the path followed by the file name,
or the bare file name at the root. -/
def uploadKey (path : String) (f : JsFile) : String :=
  if path = "" then f.name else path ++ f.name

/-- S3Service.testConnection: one list request with MaxKeys one; a failure
is rethrown with the prefix Connection failed. -/
def testConnection (s : S3Service) (beh : S3Beh) :
    List Call × Except String Unit :=
  match beh.onList s.bucketName none none (some 1) with
  | Except.ok _ => ([Call.listObjects s.bucketName none none (some 1)],
      Except.ok ())
  | Except.error e => ([Call.listObjects s.bucketName none none (some 1)],
      Except.error ("Connection failed: " ++ errMsg e))

/-- S3Service.listFiles: one list request with the path and the slash
delimiter; on success the response is processed by the pure part; a
failure is rethrown with the prefix Failed to list files. -/
def listFilesOp (s : S3Service) (beh : S3Beh) (pfx : String) (now : Int) :
    List Call × Except String (List FileItem) :=
  match beh.onList s.bucketName (some pfx) (some "/") none with
  | Except.ok resp => ([Call.listObjects s.bucketName (some pfx) (some "/") none],
      Except.ok (listFilesPure pfx resp now))
  | Except.error e => ([Call.listObjects s.bucketName (some pfx) (some "/") none],
      Except.error ("Failed to list files: " ++ errMsg e))

/-- S3Service.uploadFile: one put request with the file bytes; a failure is
rethrown with the prefix Upload failed. -/
def uploadFileOp (s : S3Service) (beh : S3Beh) (f : JsFile) (path : String) :
    List Call × Except String Unit :=
  match beh.onPut s.bucketName (uploadKey path f) (PutBody.bytes f.content) with
  | Except.ok _ =>
      ([Call.putObject s.bucketName (uploadKey path f) (PutBody.bytes f.content)],
        Except.ok ())
  | Except.error e =>
      ([Call.putObject s.bucketName (uploadKey path f) (PutBody.bytes f.content)],
        Except.error ("Upload failed: " ++ errMsg e))

/-- S3Service.deleteFile: one delete request; a failure is rethrown with
the prefix Delete failed. -/
def deleteFileOp (s : S3Service) (beh : S3Beh) (key : String) :
    List Call × Except String Unit :=
  match beh.onDelete s.bucketName key with
  | Except.ok _ => ([Call.deleteObject s.bucketName key], Except.ok ())
  | Except.error e => ([Call.deleteObject s.bucketName key],
      Except.error ("Delete failed: " ++ errMsg e))

/-- S3Service.renameFile: a copy request whose source names the same
bucket, then deleteFile on the old key; failures are rethrown with the
prefix Rename failed, a delete failure being the already wrapped delete
error. -/
def renameFileOp (s : S3Service) (beh : S3Beh) (oldKey newName : String) :
    List Call × Except String Unit :=
  match beh.onCopy s.bucketName (s.bucketName ++ "/" ++ oldKey)
      (renameKeyOf oldKey newName) with
  | Except.error e =>
      ([Call.copyObject s.bucketName (s.bucketName ++ "/" ++ oldKey)
          (renameKeyOf oldKey newName)],
        Except.error ("Rename failed: " ++ errMsg e))
  | Except.ok _ =>
      match deleteFileOp s beh oldKey with
      | (tr, Except.ok _) =>
          (Call.copyObject s.bucketName (s.bucketName ++ "/" ++ oldKey)
              (renameKeyOf oldKey newName) :: tr, Except.ok ())
      | (tr, Except.error m) =>
          (Call.copyObject s.bucketName (s.bucketName ++ "/" ++ oldKey)
              (renameKeyOf oldKey newName) :: tr,
            Except.error ("Rename failed: " ++ m))

/-- S3Service.createFolder: one put request with an empty string body; a
failure is rethrown with the prefix Create folder failed. -/
def createFolderOp (s : S3Service) (beh : S3Beh) (folderPath : String) :
    List Call × Except String Unit :=
  match beh.onPut s.bucketName folderPath (PutBody.strBody "") with
  | Except.ok _ => ([Call.putObject s.bucketName folderPath (PutBody.strBody "")],
      Except.ok ())
  | Except.error e => ([Call.putObject s.bucketName folderPath (PutBody.strBody "")],
      Except.error ("Create folder failed: " ++ errMsg e))

/-- S3Service.downloadFile: one get request; the browser-side download of
the body is not modelled; a failure is rethrown with the prefix Download
failed. -/
def downloadFileOp (s : S3Service) (beh : S3Beh) (key : String) :
    List Call × Except String Unit :=
  match beh.onGet s.bucketName key with
  | Except.ok _ => ([Call.getObject s.bucketName key], Except.ok ())
  | Except.error e => ([Call.getObject s.bucketName key],
      Except.error ("Download failed: " ++ errMsg e))

/-- S3Service.generatePresignedUrl: one signing request; a failure is
rethrown with the prefix Generate URL failed. -/
def generatePresignedUrlOp (s : S3Service) (beh : S3Beh) (key : String)
    (expiresIn : Nat) : List Call × Except String String :=
  match beh.onPresign s.bucketName key expiresIn with
  | Except.ok u => ([Call.presign s.bucketName key expiresIn], Except.ok u)
  | Except.error e => ([Call.presign s.bucketName key expiresIn],
      Except.error ("Generate URL failed: " ++ errMsg e))

/-- S3Service.getFileUrl: one signing request with a fixed expiry of 3600
seconds; a failure is rethrown with the prefix Get file URL failed. -/
def getFileUrlOp (s : S3Service) (beh : S3Beh) (key : String) :
    List Call × Except String String :=
  match beh.onPresign s.bucketName key 3600 with
  | Except.ok u => ([Call.presign s.bucketName key 3600], Except.ok u)
  | Except.error e => ([Call.presign s.bucketName key 3600],
      Except.error ("Get file URL failed: " ++ errMsg e))

/-- The keys of the listed objects that the folder download fetches: keys
present, nonempty and not ending in a slash. -/
def eligibleKeys (objs : List S3Object) : List String :=
  objs.filterMap fun o =>
    match o.key with
    | none => none
    | some k =>
      if k = "" then none
      else if endsWithSlash k then none
      else some k

/-- The per-object download loop of S3Service.downloadFolderContents: each
eligible key is fetched in turn; the first failure stops the loop and is
rethrown with the prefix Download folder failed; objects whose body is
absent contribute no entry. -/
def dlLoop (s : S3Service) (beh : S3Beh) (folderKey : String) :
    List S3Object → List Call × Except String (List (String × List Nat))
  | [] => ([], Except.ok [])
  | o :: os =>
    match o.key with
    | none => dlLoop s beh folderKey os
    | some k =>
      if k = "" then dlLoop s beh folderKey os
      else if endsWithSlash k then dlLoop s beh folderKey os
      else
        match beh.onGet s.bucketName k with
        | Except.error e => ([Call.getObject s.bucketName k],
            Except.error ("Download folder failed: " ++ errMsg e))
        | Except.ok body =>
          match dlLoop s beh folderKey os with
          | (tr, Except.error m) => (Call.getObject s.bucketName k :: tr,
              Except.error m)
          | (tr, Except.ok acc) =>
            (Call.getObject s.bucketName k :: tr,
              Except.ok
                (match body with
                  | some bs => (replaceFirstStr k folderKey "", bs) :: acc
                  | none => acc))

/-- S3Service.downloadFolderContents: one list request with the folder key
and no delimiter, then one get per eligible listed key; failures are
rethrown with the prefix Download folder failed. -/
def downloadFolderContentsOp (s : S3Service) (beh : S3Beh)
    (folderKey : String) :
    List Call × Except String (List (String × List Nat)) :=
  match beh.onList s.bucketName (some folderKey) none none with
  | Except.error e => ([Call.listObjects s.bucketName (some folderKey) none none],
      Except.error ("Download folder failed: " ++ errMsg e))
  | Except.ok resp =>
    (Call.listObjects s.bucketName (some folderKey) none none ::
        (dlLoop s beh folderKey (resp.contents.getD [])).1,
      (dlLoop s beh folderKey (resp.contents.getD [])).2)

/-! ## Page-level handlers (pages/Index.tsx) -/

/-- Index.loadFiles: one list request through listFiles; its errors are
caught and only logged, so only its trace matters to callers. -/
def loadFilesTrace (s : S3Service) (beh : S3Beh) (path : String) (now : Int) :
    List Call :=
  (listFilesOp s beh path now).1

/-- The upload loop of Index.handleUpload: each file is uploaded in list
order; the first failure is rethrown at once, so later files are not
attempted. -/
def handleUploadLoop (s : S3Service) (beh : S3Beh) (path : String) :
    List JsFile → List Call × Except String Unit
  | [] => ([], Except.ok ())
  | f :: fs =>
    match uploadFileOp s beh f path with
    | (tr, Except.error m) => (tr, Except.error m)
    | (tr, Except.ok _) =>
      match handleUploadLoop s beh path fs with
      | (tr2, r) => (tr ++ tr2, r)

/-- Index.handleUpload: the upload loop, then a reload of the current path
on success. -/
def handleUpload (s : S3Service) (beh : S3Beh) (files : List JsFile)
    (path currentPath : String) (now : Int) : List Call × Except String Unit :=
  match handleUploadLoop s beh path files with
  | (tr, Except.error m) => (tr, Except.error m)
  | (tr, Except.ok _) =>
      (tr ++ loadFilesTrace s beh currentPath now, Except.ok ())

/-- The delete loop of Index.handleDelete: each item is deleted in list
order; the first failure is rethrown at once, so later items are not
attempted. -/
def handleDeleteLoop (s : S3Service) (beh : S3Beh) :
    List FileItem → List Call × Except String Unit
  | [] => ([], Except.ok ())
  | f :: fs =>
    match deleteFileOp s beh f.key with
    | (tr, Except.error m) => (tr, Except.error m)
    | (tr, Except.ok _) =>
      match handleDeleteLoop s beh fs with
      | (tr2, r) => (tr ++ tr2, r)

/-- Index.handleDelete: the delete loop, then a reload of the current path
on success. -/
def handleDelete (s : S3Service) (beh : S3Beh) (files : List FileItem)
    (currentPath : String) (now : Int) : List Call × Except String Unit :=
  match handleDeleteLoop s beh files with
  | (tr, Except.error m) => (tr, Except.error m)
  | (tr, Except.ok _) =>
      (tr ++ loadFilesTrace s beh currentPath now, Except.ok ())

/-- Index.handleCreateFolder: builds the folder key from the current path
and the name, creates the folder, and reloads the listing on success. -/
def handleCreateFolderIndex (s : S3Service) (beh : S3Beh)
    (currentPath folderName : String) (now : Int) :
    List Call × Except String Unit :=
  match createFolderOp s beh
      (if currentPath = "" then folderName ++ "/"
        else currentPath ++ folderName ++ "/") with
  | (tr, Except.error m) => (tr, Except.error m)
  | (tr, Except.ok _) =>
      (tr ++ loadFilesTrace s beh currentPath now, Except.ok ())

/-- FileBrowser.handleCreateFolder composed with the page handler: nothing
happens unless the entered name is nonempty after trimming; the trimmed
name is the one used. -/
def handleCreateFolderUI (s : S3Service) (beh : S3Beh)
    (currentPath rawName : String) (now : Int) :
    Option (List Call × Except String Unit) :=
  if trimStr rawName = "" then none
  else some (handleCreateFolderIndex s beh currentPath (trimStr rawName) now)

/-! ## Trace lemmas for the single-call operations -/

/-- The listing operation issues exactly its one list request. -/
theorem listFilesOp_trace (s : S3Service) (beh : S3Beh) (pfx : String)
    (now : Int) :
    (listFilesOp s beh pfx now).1 =
      [Call.listObjects s.bucketName (some pfx) (some "/") none] := by
  rw [listFilesOp]
  rcases beh.onList s.bucketName (some pfx) (some "/") none with e | resp <;> rfl

/-- The create-folder operation issues exactly its one put request. -/
theorem createFolderOp_trace (s : S3Service) (beh : S3Beh) (fp : String) :
    (createFolderOp s beh fp).1 =
      [Call.putObject s.bucketName fp (PutBody.strBody "")] := by
  rw [createFolderOp]
  rcases beh.onPut s.bucketName fp (PutBody.strBody "") with e | u <;> rfl

/-- CLAIM C7. Creating a folder whose entered name is nonempty after
trimming issues exactly one mutating request: a put with an empty string
body at the current path followed by the trimmed name and a slash, or at
the trimmed name and a slash at the root; every other request of the
handler is a read. -/
theorem claim7_create_folder_single_empty_put (s : S3Service) (beh : S3Beh)
    (currentPath rawName : String) (now : Int) (h : ¬trimStr rawName = "") :
    ∃ tr r, handleCreateFolderUI s beh currentPath rawName now = some (tr, r) ∧
      tr.filter Call.isMutation =
        [Call.putObject s.bucketName
          (if currentPath = "" then trimStr rawName ++ "/"
            else currentPath ++ trimStr rawName ++ "/")
          (PutBody.strBody "")] := by
  rw [handleCreateFolderUI, if_neg h, handleCreateFolderIndex]
  rcases hcf : createFolderOp s beh
      (if currentPath = "" then trimStr rawName ++ "/"
        else currentPath ++ trimStr rawName ++ "/") with ⟨tr, r⟩
  have htr : tr =
      [Call.putObject s.bucketName
        (if currentPath = "" then trimStr rawName ++ "/"
          else currentPath ++ trimStr rawName ++ "/")
        (PutBody.strBody "")] := by
    have h2 := createFolderOp_trace s beh
      (if currentPath = "" then trimStr rawName ++ "/"
        else currentPath ++ trimStr rawName ++ "/")
    rw [hcf] at h2
    exact h2
  cases r with
  | error m =>
    refine ⟨tr, Except.error m, rfl, ?_⟩
    rw [htr]
    rfl
  | ok u =>
    refine ⟨tr ++ loadFilesTrace s beh currentPath now, Except.ok (), rfl, ?_⟩
    rw [List.filter_append, htr, loadFilesTrace, listFilesOp_trace]
    rfl

/-- A concrete behaviour where every request succeeds with an empty
response, for witnesses. -/
def behOkW : S3Beh :=
  { onList := fun _ _ _ _ => Except.ok {},
    onGet := fun _ _ => Except.ok none,
    onPut := fun _ _ _ => Except.ok (),
    onDelete := fun _ _ => Except.ok (),
    onCopy := fun _ _ _ => Except.ok (),
    onPresign := fun _ _ _ => Except.ok "url" }

/-- Witness for CLAIM C7 at a concrete service and folder name. -/
theorem claim7_witness :
    ∃ tr r, handleCreateFolderUI ⟨"bkt"⟩ behOkW "a/" " docs " 0 = some (tr, r) ∧
      tr.filter Call.isMutation =
        [Call.putObject "bkt"
          (if ("a/" : String) = "" then trimStr " docs " ++ "/"
            else "a/" ++ trimStr " docs " ++ "/")
          (PutBody.strBody "")] :=
  claim7_create_folder_single_empty_put ⟨"bkt"⟩ behOkW "a/" " docs " 0
    (by decide)

/-! ## CLAIM C5: sequential per-item loops that stop at the first failure -/

/-- The upload loop on a list whose front all succeeds and whose next file
fails: uploads run in order, stop at the failure, and return its wrapped
error. -/
theorem handleUploadLoop_stops (s : S3Service) (beh : S3Beh) (path : String)
    (pre : List JsFile) (f : JsFile) (post : List JsFile) (e : ErrVal)
    (hpre : ∀ g ∈ pre, beh.onPut s.bucketName (uploadKey path g)
      (PutBody.bytes g.content) = Except.ok ())
    (hf : beh.onPut s.bucketName (uploadKey path f)
      (PutBody.bytes f.content) = Except.error e) :
    handleUploadLoop s beh path (pre ++ f :: post) =
      ((pre ++ [f]).map (fun g => Call.putObject s.bucketName
          (uploadKey path g) (PutBody.bytes g.content)),
        Except.error ("Upload failed: " ++ errMsg e)) := by
  induction pre with
  | nil =>
    rw [List.nil_append, handleUploadLoop, uploadFileOp, hf]
    rfl
  | cons g pre ih =>
    rw [List.cons_append, handleUploadLoop, uploadFileOp,
      hpre g (List.mem_cons_self g pre),
      ih (fun g2 hg2 => hpre g2 (List.mem_cons_of_mem g hg2))]
    rfl

/-- The upload loop when every upload succeeds: one put per file, in list
order. -/
theorem handleUploadLoop_all_ok (s : S3Service) (beh : S3Beh) (path : String)
    (files : List JsFile)
    (hall : ∀ g ∈ files, beh.onPut s.bucketName (uploadKey path g)
      (PutBody.bytes g.content) = Except.ok ()) :
    handleUploadLoop s beh path files =
      (files.map (fun g => Call.putObject s.bucketName (uploadKey path g)
          (PutBody.bytes g.content)), Except.ok ()) := by
  induction files with
  | nil => rfl
  | cons g fs ih =>
    rw [handleUploadLoop, uploadFileOp, hall g (List.mem_cons_self g fs),
      ih (fun g2 h2 => hall g2 (List.mem_cons_of_mem g h2))]
    rfl

/-- The delete loop on a list whose front all succeeds and whose next item
fails: deletes run in order, stop at the failure, and return its wrapped
error. -/
theorem handleDeleteLoop_stops (s : S3Service) (beh : S3Beh)
    (pre : List FileItem) (f : FileItem) (post : List FileItem) (e : ErrVal)
    (hpre : ∀ g ∈ pre, beh.onDelete s.bucketName g.key = Except.ok ())
    (hf : beh.onDelete s.bucketName f.key = Except.error e) :
    handleDeleteLoop s beh (pre ++ f :: post) =
      ((pre ++ [f]).map (fun g => Call.deleteObject s.bucketName g.key),
        Except.error ("Delete failed: " ++ errMsg e)) := by
  induction pre with
  | nil =>
    rw [List.nil_append, handleDeleteLoop, deleteFileOp, hf]
    rfl
  | cons g pre ih =>
    rw [List.cons_append, handleDeleteLoop, deleteFileOp,
      hpre g (List.mem_cons_self g pre),
      ih (fun g2 hg2 => hpre g2 (List.mem_cons_of_mem g hg2))]
    rfl

/-- The delete loop when every delete succeeds: one delete per item, in
list order. -/
theorem handleDeleteLoop_all_ok (s : S3Service) (beh : S3Beh)
    (files : List FileItem)
    (hall : ∀ g ∈ files, beh.onDelete s.bucketName g.key = Except.ok ()) :
    handleDeleteLoop s beh files =
      (files.map (fun g => Call.deleteObject s.bucketName g.key),
        Except.ok ()) := by
  induction files with
  | nil => rfl
  | cons g fs ih =>
    rw [handleDeleteLoop, deleteFileOp, hall g (List.mem_cons_self g fs),
      ih (fun g2 h2 => hall g2 (List.mem_cons_of_mem g h2))]
    rfl

/-- CLAIM C5. Multi-item upload and delete issue their per-item requests
sequentially in list order; when the request for an item fails while all
items before it succeeded, the loop stops there, later items are never
attempted, and the wrapped error of the first failing item is what the
handler propagates; when every item succeeds, one request per item is
issued in order, followed only by the reload of the listing. -/
theorem claim5_sequential_loops_first_failure :
    (∀ (s : S3Service) (beh : S3Beh) (path currentPath : String) (now : Int)
        (pre : List JsFile) (f : JsFile) (post : List JsFile) (e : ErrVal),
      (∀ g ∈ pre, beh.onPut s.bucketName (uploadKey path g)
        (PutBody.bytes g.content) = Except.ok ()) →
      beh.onPut s.bucketName (uploadKey path f)
        (PutBody.bytes f.content) = Except.error e →
      handleUpload s beh (pre ++ f :: post) path currentPath now =
        ((pre ++ [f]).map (fun g => Call.putObject s.bucketName
            (uploadKey path g) (PutBody.bytes g.content)),
          Except.error ("Upload failed: " ++ errMsg e))) ∧
    (∀ (s : S3Service) (beh : S3Beh) (path currentPath : String) (now : Int)
        (files : List JsFile),
      (∀ g ∈ files, beh.onPut s.bucketName (uploadKey path g)
        (PutBody.bytes g.content) = Except.ok ()) →
      handleUpload s beh files path currentPath now =
        (files.map (fun g => Call.putObject s.bucketName (uploadKey path g)
            (PutBody.bytes g.content)) ++
          loadFilesTrace s beh currentPath now, Except.ok ())) ∧
    (∀ (s : S3Service) (beh : S3Beh) (currentPath : String) (now : Int)
        (pre : List FileItem) (f : FileItem) (post : List FileItem)
        (e : ErrVal),
      (∀ g ∈ pre, beh.onDelete s.bucketName g.key = Except.ok ()) →
      beh.onDelete s.bucketName f.key = Except.error e →
      handleDelete s beh (pre ++ f :: post) currentPath now =
        ((pre ++ [f]).map (fun g => Call.deleteObject s.bucketName g.key),
          Except.error ("Delete failed: " ++ errMsg e))) ∧
    (∀ (s : S3Service) (beh : S3Beh) (currentPath : String) (now : Int)
        (files : List FileItem),
      (∀ g ∈ files, beh.onDelete s.bucketName g.key = Except.ok ()) →
      handleDelete s beh files currentPath now =
        (files.map (fun g => Call.deleteObject s.bucketName g.key) ++
          loadFilesTrace s beh currentPath now, Except.ok ())) := by
  refine ⟨?_, ?_, ?_, ?_⟩
  · intro s beh path currentPath now pre f post e hpre hf
    rw [handleUpload, handleUploadLoop_stops s beh path pre f post e hpre hf]
  · intro s beh path currentPath now files hall
    rw [handleUpload, handleUploadLoop_all_ok s beh path files hall]
  · intro s beh currentPath now pre f post e hpre hf
    rw [handleDelete, handleDeleteLoop_stops s beh pre f post e hpre hf]
  · intro s beh currentPath now files hall
    rw [handleDelete, handleDeleteLoop_all_ok s beh files hall]

/-- A behaviour for the C5 witness: the put for the key bad.bin fails with
the message boom, everything else succeeds. -/
def behC5 : S3Beh :=
  { onList := fun _ _ _ _ => Except.ok {},
    onGet := fun _ _ => Except.ok none,
    onPut := fun _ k _ =>
      if k = "bad.bin" then Except.error (some "boom") else Except.ok (),
    onDelete := fun _ _ => Except.ok (),
    onCopy := fun _ _ _ => Except.ok (),
    onPresign := fun _ _ _ => Except.ok "url" }

/-- Witness for CLAIM C5: uploading good.bin, bad.bin, late.bin at the
root stops after the failing second upload and propagates its wrapped
error. -/
theorem claim5_witness :
    handleUpload ⟨"bkt"⟩ behC5 [⟨"good.bin", [1]⟩, ⟨"bad.bin", [2]⟩,
        ⟨"late.bin", [3]⟩] "" "" 0 =
      (([⟨"good.bin", [1]⟩, ⟨"bad.bin", [2]⟩] : List JsFile).map
          (fun g => Call.putObject "bkt" (uploadKey "" g)
            (PutBody.bytes g.content)),
        Except.error ("Upload failed: " ++ errMsg (some "boom"))) :=
  claim5_sequential_loops_first_failure.1 ⟨"bkt"⟩ behC5 "" "" 0
    [⟨"good.bin", [1]⟩] ⟨"bad.bin", [2]⟩ [⟨"late.bin", [3]⟩] (some "boom")
    (by intro g hg; rw [List.mem_singleton] at hg; subst hg; rfl) rfl

/-- The connection test issues exactly its one list request. -/
theorem testConnection_trace (s : S3Service) (beh : S3Beh) :
    (testConnection s beh).1 =
      [Call.listObjects s.bucketName none none (some 1)] := by
  rw [testConnection]
  rcases beh.onList s.bucketName none none (some 1) with e | u <;> rfl

/-- The upload operation issues exactly its one put request. -/
theorem uploadFileOp_trace (s : S3Service) (beh : S3Beh) (f : JsFile)
    (path : String) :
    (uploadFileOp s beh f path).1 =
      [Call.putObject s.bucketName (uploadKey path f)
        (PutBody.bytes f.content)] := by
  rw [uploadFileOp]
  rcases beh.onPut s.bucketName (uploadKey path f) (PutBody.bytes f.content)
    with e | u <;> rfl

/-- The delete operation issues exactly its one delete request. -/
theorem deleteFileOp_trace (s : S3Service) (beh : S3Beh) (key : String) :
    (deleteFileOp s beh key).1 = [Call.deleteObject s.bucketName key] := by
  rw [deleteFileOp]
  rcases beh.onDelete s.bucketName key with e | u <;> rfl

/-- The download operation issues exactly its one get request. -/
theorem downloadFileOp_trace (s : S3Service) (beh : S3Beh) (key : String) :
    (downloadFileOp s beh key).1 = [Call.getObject s.bucketName key] := by
  rw [downloadFileOp]
  rcases beh.onGet s.bucketName key with e | u <;> rfl

/-- The share operation issues exactly its one signing request. -/
theorem generatePresignedUrlOp_trace (s : S3Service) (beh : S3Beh)
    (key : String) (expiresIn : Nat) :
    (generatePresignedUrlOp s beh key expiresIn).1 =
      [Call.presign s.bucketName key expiresIn] := by
  rw [generatePresignedUrlOp]
  rcases beh.onPresign s.bucketName key expiresIn with e | u <;> rfl

/-- The preview-URL operation issues exactly its one signing request. -/
theorem getFileUrlOp_trace (s : S3Service) (beh : S3Beh) (key : String) :
    (getFileUrlOp s beh key).1 = [Call.presign s.bucketName key 3600] := by
  rw [getFileUrlOp]
  rcases beh.onPresign s.bucketName key 3600 with e | u <;> rfl

/-- The rename operation issues its copy request, followed by the delete
request only when the copy succeeded. -/
theorem renameFileOp_trace_cases (s : S3Service) (beh : S3Beh)
    (oldKey newName : String) :
    (renameFileOp s beh oldKey newName).1 =
      [Call.copyObject s.bucketName (s.bucketName ++ "/" ++ oldKey)
        (renameKeyOf oldKey newName)] ∨
    (renameFileOp s beh oldKey newName).1 =
      [Call.copyObject s.bucketName (s.bucketName ++ "/" ++ oldKey)
        (renameKeyOf oldKey newName),
       Call.deleteObject s.bucketName oldKey] := by
  rw [renameFileOp]
  cases hc : beh.onCopy s.bucketName (s.bucketName ++ "/" ++ oldKey)
      (renameKeyOf oldKey newName) with
  | error e => exact Or.inl rfl
  | ok u =>
    rw [deleteFileOp]
    cases hd : beh.onDelete s.bucketName oldKey with
    | error e => exact Or.inr rfl
    | ok v => exact Or.inr rfl

/-- Skipping an object without key leaves the eligible keys unchanged. -/
theorem eligibleKeys_cons_none {o : S3Object} {os : List S3Object}
    (hk : o.key = none) : eligibleKeys (o :: os) = eligibleKeys os := by
  simp [eligibleKeys, hk]

/-- Skipping an object with an empty key leaves the eligible keys
unchanged. -/
theorem eligibleKeys_cons_empty {o : S3Object} {os : List S3Object}
    {k : String} (hk : o.key = some k) (h1 : k = "") :
    eligibleKeys (o :: os) = eligibleKeys os := by
  simp [eligibleKeys, hk, h1]

/-- Skipping an object whose key ends in a slash leaves the eligible keys
unchanged. -/
theorem eligibleKeys_cons_slash {o : S3Object} {os : List S3Object}
    {k : String} (hk : o.key = some k) (h2 : endsWithSlash k = true) :
    eligibleKeys (o :: os) = eligibleKeys os := by
  simp [eligibleKeys, hk, h2]

/-- An eligible object contributes its key to the eligible keys. -/
theorem eligibleKeys_cons_keep {o : S3Object} {os : List S3Object}
    {k : String} (hk : o.key = some k) (h1 : ¬k = "")
    (h2 : ¬endsWithSlash k = true) :
    eligibleKeys (o :: os) = k :: eligibleKeys os := by
  simp [eligibleKeys, hk, h1, h2]

/-- The trace of the folder-download loop is the get requests for a front
part of the eligible keys, in listing order: each key is fetched at most
once and nothing is fetched twice after a failure. -/
theorem dlLoop_trace_prefix (s : S3Service) (beh : S3Beh) (folderKey : String) :
    ∀ objs : List S3Object, ∃ n, (dlLoop s beh folderKey objs).1 =
      ((eligibleKeys objs).take n).map
        (fun k => Call.getObject s.bucketName k) := by
  intro objs
  induction objs with
  | nil => exact ⟨0, rfl⟩
  | cons o os ih =>
    obtain ⟨n, hn⟩ := ih
    rcases Option.eq_none_or_eq_some o.key with hk | ⟨k, hk⟩
    · refine ⟨n, ?_⟩
      simp only [dlLoop, hk]
      rw [eligibleKeys_cons_none hk]
      exact hn
    · by_cases h1 : k = ""
      · refine ⟨n, ?_⟩
        simp only [dlLoop, hk]
        rw [if_pos h1, eligibleKeys_cons_empty hk h1]
        exact hn
      · by_cases h2 : endsWithSlash k = true
        · refine ⟨n, ?_⟩
          simp only [dlLoop, hk]
          rw [if_neg h1, if_pos h2, eligibleKeys_cons_slash hk h2]
          exact hn
        · rcases hg : beh.onGet s.bucketName k with e | body
          · refine ⟨1, ?_⟩
            simp only [dlLoop, hk]
            rw [if_neg h1, if_neg h2, hg, eligibleKeys_cons_keep hk h1 h2]
            rfl
          · rcases hd : dlLoop s beh folderKey os with ⟨tr, r⟩
            have htr : tr = ((eligibleKeys os).take n).map
                (fun k2 => Call.getObject s.bucketName k2) := by
              rw [hd] at hn
              exact hn
            refine ⟨n + 1, ?_⟩
            simp only [dlLoop, hk]
            rw [if_neg h1, if_neg h2, hg, hd, eligibleKeys_cons_keep hk h1 h2,
              List.take_succ_cons, List.map_cons, ← htr]
            cases r with
            | error m => rfl
            | ok acc => rfl

/-- The folder-download loop on a front part whose eligible keys all fetch
successfully, followed by an eligible object whose fetch fails: the loop
stops at the failure, later objects are never fetched, and the wrapped
error of the failing fetch is returned. -/
theorem dlLoop_stops (s : S3Service) (beh : S3Beh) (folderKey : String)
    (pre : List S3Object) (o : S3Object) (post : List S3Object) (k : String)
    (e : ErrVal) (hk : o.key = some k) (h1 : ¬k = "")
    (h2 : ¬endsWithSlash k = true)
    (hf : beh.onGet s.bucketName k = Except.error e) :
    (∀ k2 ∈ eligibleKeys pre, ∃ body,
      beh.onGet s.bucketName k2 = Except.ok body) →
    dlLoop s beh folderKey (pre ++ o :: post) =
      ((eligibleKeys pre ++ [k]).map
          (fun k2 => Call.getObject s.bucketName k2),
        Except.error ("Download folder failed: " ++ errMsg e)) := by
  induction pre with
  | nil =>
    intro _
    rw [List.nil_append]
    simp only [dlLoop, hk]
    rw [if_neg h1, if_neg h2, hf]
    rfl
  | cons o2 pre ih =>
    intro hpre
    rw [List.cons_append]
    rcases Option.eq_none_or_eq_some o2.key with hk2 | ⟨k2, hk2⟩
    · simp only [dlLoop, hk2]
      rw [eligibleKeys_cons_none hk2]
      refine ih ?_
      rw [eligibleKeys_cons_none hk2] at hpre
      exact hpre
    · by_cases h12 : k2 = ""
      · simp only [dlLoop, hk2]
        rw [if_pos h12, eligibleKeys_cons_empty hk2 h12]
        refine ih ?_
        rw [eligibleKeys_cons_empty hk2 h12] at hpre
        exact hpre
      · by_cases h22 : endsWithSlash k2 = true
        · simp only [dlLoop, hk2]
          rw [if_neg h12, if_pos h22, eligibleKeys_cons_slash hk2 h22]
          refine ih ?_
          rw [eligibleKeys_cons_slash hk2 h22] at hpre
          exact hpre
        · rw [eligibleKeys_cons_keep hk2 h12 h22] at hpre
          obtain ⟨body, hb⟩ := hpre k2 (List.mem_cons_self k2 _)
          simp only [dlLoop, hk2]
          rw [if_neg h12, if_neg h22, hb,
            ih (fun k3 h3 => hpre k3 (List.mem_cons_of_mem k2 h3)),
            eligibleKeys_cons_keep hk2 h12 h22]
          rfl

/-- CLAIM C8. The service captures the bucket name from the credentials at
construction; every request any operation issues names that bucket, and
the copy request of rename also names it inside its copy source, which is
the bucket name, a slash, and the old key. -/
theorem claim8_every_call_names_constructed_bucket :
    (∀ creds : S3Credentials,
      (S3Service.ofCredentials creds).bucketName = creds.bucketName) ∧
    (∀ (s : S3Service) (beh : S3Beh),
      (∀ c ∈ (testConnection s beh).1, c.bucketOf = s.bucketName) ∧
      (∀ (pfx : String) (now : Int),
        ∀ c ∈ (listFilesOp s beh pfx now).1, c.bucketOf = s.bucketName) ∧
      (∀ (f : JsFile) (path : String),
        ∀ c ∈ (uploadFileOp s beh f path).1, c.bucketOf = s.bucketName) ∧
      (∀ key : String,
        ∀ c ∈ (deleteFileOp s beh key).1, c.bucketOf = s.bucketName) ∧
      (∀ oldKey newName : String,
        ∀ c ∈ (renameFileOp s beh oldKey newName).1,
          c.bucketOf = s.bucketName) ∧
      (∀ oldKey newName : String,
        (renameFileOp s beh oldKey newName).1.head? =
          some (Call.copyObject s.bucketName (s.bucketName ++ "/" ++ oldKey)
            (renameKeyOf oldKey newName))) ∧
      (∀ fp : String,
        ∀ c ∈ (createFolderOp s beh fp).1, c.bucketOf = s.bucketName) ∧
      (∀ key : String,
        ∀ c ∈ (downloadFileOp s beh key).1, c.bucketOf = s.bucketName) ∧
      (∀ (key : String) (expiresIn : Nat),
        ∀ c ∈ (generatePresignedUrlOp s beh key expiresIn).1,
          c.bucketOf = s.bucketName) ∧
      (∀ key : String,
        ∀ c ∈ (getFileUrlOp s beh key).1, c.bucketOf = s.bucketName) ∧
      (∀ fk : String,
        ∀ c ∈ (downloadFolderContentsOp s beh fk).1,
          c.bucketOf = s.bucketName)) := by
  refine ⟨fun _ => rfl, ?_⟩
  intro s beh
  refine ⟨?_, ?_, ?_, ?_, ?_, ?_, ?_, ?_, ?_, ?_, ?_⟩
  · intro c hc
    rw [testConnection_trace, List.mem_singleton] at hc
    subst hc; rfl
  · intro pfx now c hc
    rw [listFilesOp_trace, List.mem_singleton] at hc
    subst hc; rfl
  · intro f path c hc
    rw [uploadFileOp_trace, List.mem_singleton] at hc
    subst hc; rfl
  · intro key c hc
    rw [deleteFileOp_trace, List.mem_singleton] at hc
    subst hc; rfl
  · intro oldKey newName c hc
    rcases renameFileOp_trace_cases s beh oldKey newName with h | h
    · rw [h, List.mem_singleton] at hc
      subst hc; rfl
    · rw [h] at hc
      rcases List.mem_cons.mp hc with h3 | h3
      · subst h3; rfl
      · rw [List.mem_singleton] at h3
        subst h3; rfl
  · intro oldKey newName
    rcases renameFileOp_trace_cases s beh oldKey newName with h | h <;>
      rw [h] <;> rfl
  · intro fp c hc
    rw [createFolderOp_trace, List.mem_singleton] at hc
    subst hc; rfl
  · intro key c hc
    rw [downloadFileOp_trace, List.mem_singleton] at hc
    subst hc; rfl
  · intro key expiresIn c hc
    rw [generatePresignedUrlOp_trace, List.mem_singleton] at hc
    subst hc; rfl
  · intro key c hc
    rw [getFileUrlOp_trace, List.mem_singleton] at hc
    subst hc; rfl
  · intro fk c hc
    rcases hl : beh.onList s.bucketName (some fk) none none with e | resp
    · simp only [downloadFolderContentsOp, hl] at hc
      rw [List.mem_singleton] at hc
      subst hc; rfl
    · simp only [downloadFolderContentsOp, hl] at hc
      rcases List.mem_cons.mp hc with h3 | h3
      · subst h3; rfl
      · obtain ⟨n, hn⟩ := dlLoop_trace_prefix s beh fk (resp.contents.getD [])
        rw [hn, List.mem_map] at h3
        obtain ⟨k2, _, hk2⟩ := h3
        rw [← hk2]; rfl

/-- Witness for CLAIM C8 at a concrete credential record and a concrete
request of the connection test. -/
theorem claim8_witness :
    (S3Service.ofCredentials ⟨"ak", "sk", "r1", "bkt"⟩).bucketName = "bkt" ∧
    (Call.listObjects "bkt" none none (some 1)).bucketOf = "bkt" :=
  ⟨claim8_every_call_names_constructed_bucket.1 ⟨"ak", "sk", "r1", "bkt"⟩,
    (claim8_every_call_names_constructed_bucket.2 ⟨"bkt"⟩ behOkW).1
      (Call.listObjects "bkt" none none (some 1)) (by decide)⟩

/-- CLAIM C4. For every operation of the service, a failing client call
makes the operation throw an error built from the fixed operation-specific
prefix followed by the message of the caught error, or Unknown error when
the thrown value carries none; the rename operation wraps a failing delete
step in both prefixes, reflecting its two-step structure; and no operation
retries a call: every trace contains each request at most once, the folder
download requiring only that the listed keys are distinct. -/
theorem claim4_errors_wrapped_and_never_retried :
    ∀ (s : S3Service) (beh : S3Beh),
    (∀ e, beh.onList s.bucketName none none (some 1) = Except.error e →
      testConnection s beh =
        ([Call.listObjects s.bucketName none none (some 1)],
          Except.error ("Connection failed: " ++ errMsg e))) ∧
    (testConnection s beh).1.Nodup ∧
    (∀ (pfx : String) (now : Int) e,
      beh.onList s.bucketName (some pfx) (some "/") none = Except.error e →
      listFilesOp s beh pfx now =
        ([Call.listObjects s.bucketName (some pfx) (some "/") none],
          Except.error ("Failed to list files: " ++ errMsg e))) ∧
    (∀ (pfx : String) (now : Int), (listFilesOp s beh pfx now).1.Nodup) ∧
    (∀ (f : JsFile) (path : String) e,
      beh.onPut s.bucketName (uploadKey path f) (PutBody.bytes f.content) =
        Except.error e →
      uploadFileOp s beh f path =
        ([Call.putObject s.bucketName (uploadKey path f)
            (PutBody.bytes f.content)],
          Except.error ("Upload failed: " ++ errMsg e))) ∧
    (∀ (f : JsFile) (path : String), (uploadFileOp s beh f path).1.Nodup) ∧
    (∀ (key : String) e,
      beh.onDelete s.bucketName key = Except.error e →
      deleteFileOp s beh key =
        ([Call.deleteObject s.bucketName key],
          Except.error ("Delete failed: " ++ errMsg e))) ∧
    (∀ key : String, (deleteFileOp s beh key).1.Nodup) ∧
    (∀ (oldKey newName : String) e,
      beh.onCopy s.bucketName (s.bucketName ++ "/" ++ oldKey)
          (renameKeyOf oldKey newName) = Except.error e →
      renameFileOp s beh oldKey newName =
        ([Call.copyObject s.bucketName (s.bucketName ++ "/" ++ oldKey)
            (renameKeyOf oldKey newName)],
          Except.error ("Rename failed: " ++ errMsg e))) ∧
    (∀ (oldKey newName : String) u e,
      beh.onCopy s.bucketName (s.bucketName ++ "/" ++ oldKey)
          (renameKeyOf oldKey newName) = Except.ok u →
      beh.onDelete s.bucketName oldKey = Except.error e →
      renameFileOp s beh oldKey newName =
        ([Call.copyObject s.bucketName (s.bucketName ++ "/" ++ oldKey)
            (renameKeyOf oldKey newName),
          Call.deleteObject s.bucketName oldKey],
          Except.error ("Rename failed: " ++ ("Delete failed: " ++ errMsg e)))) ∧
    (∀ oldKey newName : String,
      (renameFileOp s beh oldKey newName).1.Nodup) ∧
    (∀ (fp : String) e,
      beh.onPut s.bucketName fp (PutBody.strBody "") = Except.error e →
      createFolderOp s beh fp =
        ([Call.putObject s.bucketName fp (PutBody.strBody "")],
          Except.error ("Create folder failed: " ++ errMsg e))) ∧
    (∀ fp : String, (createFolderOp s beh fp).1.Nodup) ∧
    (∀ (key : String) e,
      beh.onGet s.bucketName key = Except.error e →
      downloadFileOp s beh key =
        ([Call.getObject s.bucketName key],
          Except.error ("Download failed: " ++ errMsg e))) ∧
    (∀ key : String, (downloadFileOp s beh key).1.Nodup) ∧
    (∀ (key : String) (expiresIn : Nat) e,
      beh.onPresign s.bucketName key expiresIn = Except.error e →
      generatePresignedUrlOp s beh key expiresIn =
        ([Call.presign s.bucketName key expiresIn],
          Except.error ("Generate URL failed: " ++ errMsg e))) ∧
    (∀ (key : String) (expiresIn : Nat),
      (generatePresignedUrlOp s beh key expiresIn).1.Nodup) ∧
    (∀ (key : String) e,
      beh.onPresign s.bucketName key 3600 = Except.error e →
      getFileUrlOp s beh key =
        ([Call.presign s.bucketName key 3600],
          Except.error ("Get file URL failed: " ++ errMsg e))) ∧
    (∀ key : String, (getFileUrlOp s beh key).1.Nodup) ∧
    (∀ (fk : String) e,
      beh.onList s.bucketName (some fk) none none = Except.error e →
      downloadFolderContentsOp s beh fk =
        ([Call.listObjects s.bucketName (some fk) none none],
          Except.error ("Download folder failed: " ++ errMsg e))) ∧
    (∀ (fk : String) (resp : ListResponse) (pre : List S3Object)
        (o : S3Object) (post : List S3Object) (k : String) e,
      beh.onList s.bucketName (some fk) none none = Except.ok resp →
      resp.contents.getD [] = pre ++ o :: post →
      o.key = some k → ¬k = "" → ¬endsWithSlash k = true →
      beh.onGet s.bucketName k = Except.error e →
      (∀ k2 ∈ eligibleKeys pre, ∃ body,
        beh.onGet s.bucketName k2 = Except.ok body) →
      downloadFolderContentsOp s beh fk =
        (Call.listObjects s.bucketName (some fk) none none ::
            (eligibleKeys pre ++ [k]).map
              (fun k2 => Call.getObject s.bucketName k2),
          Except.error ("Download folder failed: " ++ errMsg e))) ∧
    (∀ fk : String,
      (∀ resp, beh.onList s.bucketName (some fk) none none = Except.ok resp →
        (eligibleKeys (resp.contents.getD [])).Nodup) →
      (downloadFolderContentsOp s beh fk).1.Nodup) := by
  intro s beh
  refine ⟨?_, ?_, ?_, ?_, ?_, ?_, ?_, ?_, ?_, ?_, ?_, ?_, ?_, ?_, ?_, ?_, ?_,
    ?_, ?_, ?_, ?_, ?_⟩
  · intro e h
    simp only [testConnection, h]
  · rw [testConnection_trace]
    exact List.nodup_singleton _
  · intro pfx now e h
    simp only [listFilesOp, h]
  · intro pfx now
    rw [listFilesOp_trace]
    exact List.nodup_singleton _
  · intro f path e h
    simp only [uploadFileOp, h]
  · intro f path
    rw [uploadFileOp_trace]
    exact List.nodup_singleton _
  · intro key e h
    simp only [deleteFileOp, h]
  · intro key
    rw [deleteFileOp_trace]
    exact List.nodup_singleton _
  · intro oldKey newName e h
    simp only [renameFileOp, h]
  · intro oldKey newName u e hc hd
    simp only [renameFileOp, hc, deleteFileOp, hd]
  · intro oldKey newName
    rcases renameFileOp_trace_cases s beh oldKey newName with h | h
    · rw [h]
      exact List.nodup_singleton _
    · rw [h]
      refine List.nodup_cons.mpr ⟨?_, List.nodup_singleton _⟩
      intro hm
      rw [List.mem_singleton] at hm
      exact Call.noConfusion hm
  · intro fp e h
    simp only [createFolderOp, h]
  · intro fp
    rw [createFolderOp_trace]
    exact List.nodup_singleton _
  · intro key e h
    simp only [downloadFileOp, h]
  · intro key
    rw [downloadFileOp_trace]
    exact List.nodup_singleton _
  · intro key expiresIn e h
    simp only [generatePresignedUrlOp, h]
  · intro key expiresIn
    rw [generatePresignedUrlOp_trace]
    exact List.nodup_singleton _
  · intro key e h
    simp only [getFileUrlOp, h]
  · intro key
    rw [getFileUrlOp_trace]
    exact List.nodup_singleton _
  · intro fk e h
    simp only [downloadFolderContentsOp, h]
  · intro fk resp pre o post k e hl hdecomp hk h1 h2 hf hpre
    simp only [downloadFolderContentsOp, hl, hdecomp,
      dlLoop_stops s beh fk pre o post k e hk h1 h2 hf hpre]
  · intro fk hnd
    rcases hl : beh.onList s.bucketName (some fk) none none with e | resp
    · simp only [downloadFolderContentsOp, hl]
      exact List.nodup_singleton _
    · simp only [downloadFolderContentsOp, hl]
      obtain ⟨n, hn⟩ := dlLoop_trace_prefix s beh fk (resp.contents.getD [])
      rw [hn]
      refine List.nodup_cons.mpr ⟨?_, ?_⟩
      · intro hmem
        rw [List.mem_map] at hmem
        obtain ⟨k2, _, hk2⟩ := hmem
        exact Call.noConfusion hk2
      · refine List.Nodup.map ?_ ?_
        · intro x y hxy
          exact (Call.getObject.inj hxy).2
        · exact List.Nodup.sublist (List.take_sublist n _) (hnd resp hl)

/-- A behaviour for the C4 witness where every request fails as an Error
with message boom. -/
def behFail : S3Beh :=
  { onList := fun _ _ _ _ => Except.error (some "boom"),
    onGet := fun _ _ => Except.error (some "boom"),
    onPut := fun _ _ _ => Except.error (some "boom"),
    onDelete := fun _ _ => Except.error (some "boom"),
    onCopy := fun _ _ _ => Except.error (some "boom"),
    onPresign := fun _ _ _ => Except.error (some "boom") }

/-- A behaviour for the C4 witness where only the delete request fails. -/
def behC4 : S3Beh :=
  { onList := fun _ _ _ _ => Except.ok {},
    onGet := fun _ _ => Except.ok none,
    onPut := fun _ _ _ => Except.ok (),
    onDelete := fun _ _ => Except.error (some "boom"),
    onCopy := fun _ _ _ => Except.ok (),
    onPresign := fun _ _ _ => Except.ok "url" }

/-- Witness for CLAIM C4 at concrete behaviours: the failing connection
test wraps the message once, the rename whose delete step fails wraps it
in both prefixes, and the folder download trace repeats no request. -/
theorem claim4_witness :
    testConnection ⟨"bkt"⟩ behFail =
      ([Call.listObjects "bkt" none none (some 1)],
        Except.error ("Connection failed: " ++ errMsg (some "boom"))) ∧
    renameFileOp ⟨"bkt"⟩ behC4 "a/b.txt" "c.txt" =
      ([Call.copyObject "bkt" ("bkt" ++ "/" ++ "a/b.txt")
          (renameKeyOf "a/b.txt" "c.txt"),
        Call.deleteObject "bkt" "a/b.txt"],
        Except.error
          ("Rename failed: " ++ ("Delete failed: " ++ errMsg (some "boom")))) ∧
    (downloadFolderContentsOp ⟨"bkt"⟩ behFail "f/").1.Nodup := by
  have h1 := claim4_errors_wrapped_and_never_retried ⟨"bkt"⟩ behFail
  have h2 := claim4_errors_wrapped_and_never_retried ⟨"bkt"⟩ behC4
  refine ⟨h1.1 (some "boom") rfl, ?_, ?_⟩
  · exact h2.2.2.2.2.2.2.2.2.2.1 "a/b.txt" "c.txt" () (some "boom") rfl rfl
  · exact h1.2.2.2.2.2.2.2.2.2.2.2.2.2.2.2.2.2.2.2.2.2 "f/"
      (fun resp h => Except.noConfusion h)
